import Mathlib

/-!
Formal model of the magic-stream token service.

This file embeds, in Lean, the refresh-token service of the repository
(`Backend/MagicStreamServer/controllers/auth/tokenService.go`) together with
the Mongo-backed refresh-token repository
(`Backend/MagicStreamServer/repositories`, the `refreshTokenRepositoryImpl`)
and the configuration loader (`Backend/MagicStreamServer/config/config.go`),
and proves properties about the embedded operations.

Modelling conventions:

* Time is an `Int` counting nanoseconds (the Go `time.Time`/`time.Duration`
  resolution).  JWT `exp` claims are Unix seconds, obtained by `time.Unix()`,
  modelled by integer division by `nsPerSec`.
* A signed JWT string produced by `jwt.NewWithClaims(HS256, claims)` followed
  by `SignedString(secret)` is a deterministic function of the header
  algorithm, the claims map (here always exactly `sub`, `exp`, `typ`, with
  `exp` serialised at second granularity), and the signing key; conversely,
  distinct (alg, sub, exp, typ, key) tuples yield distinct strings (the
  payload or the MAC differs).  A token string is therefore modelled exactly
  by the `Token` structure below, with string equality as structural equality.
* `jwt.Parse` with the keyfunc used in the source rejects a token whenever
  the signing method is not HMAC (the keyfunc returns `ErrSignatureInvalid`),
  whenever the MAC does not verify against the supplied secret, or whenever
  the registered `exp` claim is not in the future (golang-jwt/v5 default
  validator, zero leeway: valid iff `now` is strictly before `exp`).  Every
  such failure surfaces as a non-nil error, which the service wraps into
  `ErrInvalidToken`.
* The Mongo collection of refresh-token records is modelled as a list in
  insertion order: `InsertOne` appends, `FindOne` returns the first match in
  natural order, `UpdateOne` updates the first `_id` match, `UpdateMany`
  and `DeleteMany` act on all matches.
* Go functions returning `(value, error)` pairs are modelled by
  `Option value × Option error` (plus the resulting store state for the
  operations that touch the repository).  Store write failures of
  `InsertOne` (resp. the ignored failures of `UpdateOne` inside
  `UseRefreshToken`) are modelled by the Boolean oracles `createOk`
  (resp. `revokeOk`); HMAC signing itself never fails.
-/

set_option autoImplicit false

namespace MagicStream

/-- Nanoseconds per second; `time.Duration` is an integer nanosecond count. -/
def nsPerSec : Int := 1000000000

/-- `time.Minute` in nanoseconds. -/
def minuteNs : Int := 60 * nsPerSec

/-- `time.Hour` in nanoseconds. -/
def hourNs : Int := 3600 * nsPerSec

/-- `time.Time.Unix()`: Unix seconds of a nanosecond instant. -/
def unixSeconds (t : Int) : Int := t / nsPerSec

/-- Model of a signed JWT string: the header algorithm, the three claims the
service always sets (`sub`, `exp` in Unix seconds, `typ`), and the key used
to produce the MAC.  Two token strings coincide exactly when these agree. -/
structure Token where
  alg : String
  sub : String
  exp : Int
  typ : String
  key : String
deriving DecidableEq

/-- The type assertion `t.Method.(*jwt.SigningMethodHMAC)` in both keyfuncs:
it succeeds exactly for the HMAC family of signing methods. -/
def isHMAC (alg : String) : Prop :=
  alg = "HS256" ∨ alg = "HS384" ∨ alg = "HS512"

instance (alg : String) : Decidable (isHMAC alg) := by
  unfold isHMAC; infer_instance

/-- `jwt.Parse(tokenStr, keyfunc)` succeeds: the signing method is HMAC (else
the keyfunc returns `ErrSignatureInvalid`), the MAC verifies against
`secret`, and the `exp` claim is strictly in the future (golang-jwt/v5
default validation with zero leeway). -/
def parseOk (tok : Token) (secret : String) (now : Int) : Prop :=
  isHMAC tok.alg ∧ tok.key = secret ∧ now < tok.exp * nsPerSec

instance (tok : Token) (secret : String) (now : Int) :
    Decidable (parseOk tok secret now) := by
  unfold parseOk; infer_instance

/-- `models.RefreshToken`: one document of the `refresh_token` collection. -/
structure RefreshTokenRec where
  id : Nat
  userID : String
  token : Token
  expiresAt : Int
  createdAt : Int
  revoked : Bool
deriving DecidableEq

/-- The `refresh_token` Mongo collection, in insertion (natural) order. -/
abbrev Store := List RefreshTokenRec

/-- Error taxonomy of the service and repository layers. -/
inductive TSError where
  | invalidToken
  | revokedToken
  | persistenceError
  | notFoundError
deriving DecidableEq

/-- `config.Config`, restricted to the fields the token service reads. -/
structure Config where
  jwtAccessSecret : String
  jwtRefreshSecret : String
  accessTokenExpireMin : Int
  refreshTokenExpireHr : Int
deriving DecidableEq

/-- `models.TokenPair`. -/
structure TokenPair where
  accessToken : Token
  refreshToken : Token
deriving DecidableEq

/-- `config.getEnv`: an environment lookup with a default for the empty
value (`os.Getenv` yields the empty string for unset variables). -/
def getEnv (env : String → String) (key defaultValue : String) : String :=
  if env key = "" then defaultValue else env key

/-- `config.LoadConfig`, restricted to the token-service fields.  The two
TTLs go through `strconv.Atoi` with the error discarded, so an unparsable
value degrades to `0`. -/
def loadConfig (env : String → String) : Config :=
  { jwtAccessSecret := getEnv env "JWT_ACCESS_SECRET" ""
    jwtRefreshSecret := getEnv env "JWT_REFRESH_SECRET" ""
    accessTokenExpireMin := ((getEnv env "ACCESS_TOKEN_EXPIRE_MINUTES" "15").toInt?).getD 0
    refreshTokenExpireHr := ((getEnv env "REFRESH_TOKEN_EXPIRE_HOURS" "168").toInt?).getD 0 }

/-- `authservice.TokenService` (the repository handle carries no state of
its own and is left implicit; the store is threaded through operations). -/
structure TokenService where
  cfg : Config

/-- `authservice.NewTokenService`. -/
def newTokenService (cfg : Config) : TokenService := ⟨cfg⟩

/-! Repository operations, from `refreshTokenRepositoryImpl`. -/

/-- `Create`: `InsertOne` appends the document. -/
def createRec (s : Store) (doc : RefreshTokenRec) : Store := s ++ [doc]

/-- `FindByToken`: `FindOne` with filter `{token, user_id}` returns the
first matching document in natural order, or `ErrRefreshTokenNotFound`. -/
def findByToken (s : Store) (tok : Token) (userID : String) : Option RefreshTokenRec :=
  s.find? (fun r => decide (r.token = tok ∧ r.userID = userID))

/-- `RevokeUserTokens`: `UpdateMany` with filter
`{user_id: userID, revoked: false}` and update `{$set: {revoked: true}}`. -/
def revokeUserTokens (s : Store) (userID : String) : Store :=
  s.map (fun r => if r.userID = userID ∧ r.revoked = false then { r with revoked := true } else r)

/-- `UpdateOne` with filter `{_id: tokenID}` and update
`{$set: {revoked: true}}`: updates the first `_id` match, if any. -/
def setRevokedFirst (s : Store) (tokenID : Nat) : Store :=
  match s with
  | [] => []
  | r :: rs =>
    if r.id = tokenID then { r with revoked := true } :: rs
    else r :: setRevokedFirst rs tokenID

/-- `RevokeToken`: the `UpdateOne` above, returning
`ErrRefreshTokenNotFound` when `MatchedCount` is zero. -/
def revokeToken (s : Store) (tokenID : Nat) : Store × Option TSError :=
  if s.any (fun r => decide (r.id = tokenID)) then (setRevokedFirst s tokenID, none)
  else (s, some .notFoundError)

/-- `CleanupExpired`: `DeleteMany` with filter
`{expires_at: {$lt: now}}` keeps exactly the documents whose expiry is not
strictly before `now`. -/
def cleanupExpired (s : Store) (now : Int) : Store :=
  s.filter (fun r => decide (¬ r.expiresAt < now))

/-! Token-service operations, from `tokenService.go`. -/

/-- The access token minted by `GenerateTokenPair`:
claims `{sub: userID, exp: (now + accessTTL).Unix(), typ: "access"}`,
signed HS256 with the access secret. -/
def accessTokenOf (cfg : Config) (userID : String) (now : Int) : Token :=
  ⟨"HS256", userID, unixSeconds (now + cfg.accessTokenExpireMin * minuteNs), "access",
    cfg.jwtAccessSecret⟩

/-- The refresh token minted by `GenerateTokenPair`:
claims `{sub: userID, exp: (now + refreshTTL).Unix(), typ: "refresh"}`,
signed HS256 with the refresh secret. -/
def refreshTokenOf (cfg : Config) (userID : String) (now : Int) : Token :=
  ⟨"HS256", userID, unixSeconds (now + cfg.refreshTokenExpireHr * hourNs), "refresh",
    cfg.jwtRefreshSecret⟩

/-- The refresh-token document persisted by `GenerateTokenPair`
(`InsertOne` assigns the fresh object id `newId`). -/
def refreshDocOf (cfg : Config) (userID : String) (now : Int) (newId : Nat) : RefreshTokenRec :=
  ⟨newId, userID, refreshTokenOf cfg userID now,
    now + cfg.refreshTokenExpireHr * hourNs, now, false⟩

/-- `GenerateTokenPair`: mint both tokens, persist the refresh document,
and return the pair; a failing `Create` aborts with no pair returned. -/
def generateTokenPair (cfg : Config) (userID : String) (now : Int) (newId : Nat)
    (createOk : Bool) (s : Store) : Option TokenPair × Option TSError × Store :=
  if createOk then
    (some ⟨accessTokenOf cfg userID now, refreshTokenOf cfg userID now⟩, none,
      createRec s (refreshDocOf cfg userID now newId))
  else (none, some .persistenceError, s)

/-- `ValidateAccessToken`: parse against the access secret, require the
claims cast, `typ = "access"`, and a non-empty `sub`; the store is never
consulted (the function does not take it). -/
def validateAccessToken (cfg : Config) (tok : Token) (now : Int) :
    Option String × Option TSError :=
  if ¬ parseOk tok cfg.jwtAccessSecret now then (none, some .invalidToken)
  else if tok.typ ≠ "access" then (none, some .invalidToken)
  else if tok.sub = "" then (none, some .invalidToken)
  else (some tok.sub, none)

/-- `RevokeRefreshTokens`: delegate to `RevokeUserTokens` (whose
`UpdateMany` reports no error regardless of the number of matches). -/
def revokeRefreshTokens (s : Store) (userID : String) : Store × Option TSError :=
  (revokeUserTokens s userID, none)

/-- `UseRefreshToken`: parse against the refresh secret, require
`typ = "refresh"` and a non-empty `sub`, look the token up in the store,
fail `RevokedToken` on a revoked record, best-effort revoke and fail
`InvalidToken` on an expired record, otherwise best-effort revoke
(single-use) and mint a new pair via `GenerateTokenPair`. -/
def useRefreshToken (cfg : Config) (tok : Token) (now : Int) (newId : Nat)
    (revokeOk createOk : Bool) (s : Store) :
    Option TokenPair × Option TSError × Store :=
  if ¬ parseOk tok cfg.jwtRefreshSecret now then (none, some .invalidToken, s)
  else if tok.typ ≠ "refresh" then (none, some .invalidToken, s)
  else if tok.sub = "" then (none, some .invalidToken, s)
  else
    match findByToken s tok tok.sub with
    | none => (none, some .invalidToken, s)
    | some stored =>
      if stored.revoked then (none, some .revokedToken, s)
      else if stored.expiresAt < now then
        (none, some .invalidToken, if revokeOk then (revokeToken s stored.id).1 else s)
      else
        generateTokenPair cfg tok.sub now newId createOk
          (if revokeOk then (revokeToken s stored.id).1 else s)

/-- `CleanupExpiredRefreshTokens`: delegate to `CleanupExpired`. -/
def cleanupExpiredService (s : Store) (now : Int) : Store × Option TSError :=
  (cleanupExpired s now, none)

/-! Helper lemmas about the repository operations. -/

lemma set_revoked_eq_self {r : RefreshTokenRec} (h : r.revoked = true) :
    { r with revoked := true } = r := by
  cases r; simp_all

lemma findByToken_cons (r : RefreshTokenRec) (rs : Store) (tok : Token) (u : String) :
    findByToken (r :: rs) tok u =
      if r.token = tok ∧ r.userID = u then some r else findByToken rs tok u := by
  by_cases h : r.token = tok ∧ r.userID = u <;>
    simp [findByToken, List.find?_cons, h]

lemma setRevokedFirst_eq_self {s : Store} {tid : Nat} (h : ∀ r ∈ s, r.id ≠ tid) :
    setRevokedFirst s tid = s := by
  induction s with
  | nil => rfl
  | cons a as ih =>
    simp only [setRevokedFirst, if_neg (h a (List.mem_cons_self a as))]
    rw [ih fun r hr => h r (List.mem_cons_of_mem a hr)]

lemma revokeToken_fst (s : Store) (tid : Nat) :
    (revokeToken s tid).1 = setRevokedFirst s tid := by
  unfold revokeToken
  by_cases h : s.any (fun r => decide (r.id = tid)) = true
  · rw [if_pos h]
  · rw [if_neg h]
    have hall : ∀ r ∈ s, r.id ≠ tid := by
      intro r hr he
      exact h (List.any_eq_true.mpr ⟨r, hr, by simp [he]⟩)
    exact (setRevokedFirst_eq_self hall).symm

lemma findByToken_setRevokedFirst
    {s : Store} {tok : Token} {u : String} {stored : RefreshTokenRec}
    (hids : (s.map (fun r => r.id)).Nodup)
    (hfind : findByToken s tok u = some stored) :
    findByToken (setRevokedFirst s stored.id) tok u
      = some { stored with revoked := true } := by
  induction s with
  | nil => simp [findByToken] at hfind
  | cons r rs ih =>
    rw [findByToken_cons] at hfind
    by_cases h : r.token = tok ∧ r.userID = u
    · rw [if_pos h] at hfind
      obtain rfl : stored = r := by injection hfind with h2; exact h2.symm
      have hset : setRevokedFirst (stored :: rs) stored.id
          = { stored with revoked := true } :: rs := by
        simp [setRevokedFirst]
      rw [hset, findByToken_cons, if_pos ⟨h.1, h.2⟩]
    · rw [if_neg h] at hfind
      have hmem : stored ∈ rs := List.mem_of_find?_eq_some hfind
      have hnodup : (∀ x ∈ rs, ¬ x.id = r.id) ∧ (rs.map fun x => x.id).Nodup := by
        simpa using hids
      have hne : r.id ≠ stored.id := fun he => hnodup.1 stored hmem he.symm
      have hset : setRevokedFirst (r :: rs) stored.id
          = r :: setRevokedFirst rs stored.id := by
        simp [setRevokedFirst, hne]
      rw [hset, findByToken_cons, if_neg h]
      exact ih hnodup.2 hfind

lemma findByToken_append_left {s1 : Store} (s2 : Store) {tok : Token} {u : String}
    {r : RefreshTokenRec} (h : findByToken s1 tok u = some r) :
    findByToken (s1 ++ s2) tok u = some r := by
  induction s1 with
  | nil => simp [findByToken] at h
  | cons a as ih =>
    rw [findByToken_cons] at h
    rw [List.cons_append, findByToken_cons]
    by_cases hc : a.token = tok ∧ a.userID = u
    · rw [if_pos hc] at h ⊢; exact h
    · rw [if_neg hc] at h ⊢; exact ih h

lemma setRevokedFirst_revoked_mono
    {s : Store} {tid : Nat} {i : Nat} {r r' : RefreshTokenRec}
    (h : s[i]? = some r) (h' : (setRevokedFirst s tid)[i]? = some r')
    (hr : r.revoked = true) : r'.revoked = true := by
  induction s generalizing i with
  | nil => simp at h
  | cons a as ih =>
    by_cases ha : a.id = tid
    · have hset : setRevokedFirst (a :: as) tid = { a with revoked := true } :: as := by
        simp [setRevokedFirst, ha]
      rw [hset] at h'
      cases i with
      | zero =>
        simp only [List.getElem?_cons_zero, Option.some_inj] at h h'
        rw [← h']
      | succ n =>
        simp only [List.getElem?_cons_succ] at h h'
        rw [h] at h'
        rw [← Option.some_inj.mp h']
        exact hr
    · have hset : setRevokedFirst (a :: as) tid = a :: setRevokedFirst as tid := by
        simp [setRevokedFirst, ha]
      rw [hset] at h'
      cases i with
      | zero =>
        simp only [List.getElem?_cons_zero, Option.some_inj] at h h'
        rw [← h', h]
        exact hr
      | succ n =>
        simp only [List.getElem?_cons_succ] at h h'
        exact ih h h'

lemma mem_setRevokedFirst {s : Store} {tid : Nat} {r' : RefreshTokenRec}
    (h : r' ∈ setRevokedFirst s tid) :
    r' ∈ s ∨ ∃ r ∈ s, r' = { r with revoked := true } := by
  induction s with
  | nil => simp [setRevokedFirst] at h
  | cons a as ih =>
    by_cases ha : a.id = tid
    · rw [show setRevokedFirst (a :: as) tid = { a with revoked := true } :: as by
        simp [setRevokedFirst, ha]] at h
      rcases List.mem_cons.mp h with h1 | h1
      · exact Or.inr ⟨a, List.mem_cons_self a as, h1⟩
      · exact Or.inl (List.mem_cons_of_mem a h1)
    · rw [show setRevokedFirst (a :: as) tid = a :: setRevokedFirst as tid by
        simp [setRevokedFirst, ha]] at h
      rcases List.mem_cons.mp h with h1 | h1
      · exact Or.inl (h1 ▸ List.mem_cons_self a as)
      · rcases ih h1 with h2 | ⟨r, hr, he⟩
        · exact Or.inl (List.mem_cons_of_mem a h2)
        · exact Or.inr ⟨r, List.mem_cons_of_mem a hr, he⟩

lemma mem_store_after_optional_revoke {s : Store} {tid : Nat} {rok : Bool}
    {rec2 : RefreshTokenRec}
    (h : rec2 ∈ (if rok then setRevokedFirst s tid else s)) :
    rec2 ∈ s ∨ ∃ rec1 ∈ s, rec2 = { rec1 with revoked := true } := by
  cases rok
  · exact Or.inl (by simpa using h)
  · exact mem_setRevokedFirst (by simpa using h)

lemma revokeUserTokens_eq_map (s : Store) (uid : String) :
    revokeUserTokens s uid
      = s.map (fun r => if r.userID = uid then { r with revoked := true } else r) := by
  unfold revokeUserTokens
  refine List.map_congr_left ?_
  intro r _
  by_cases h1 : r.userID = uid
  · by_cases h2 : r.revoked = true
    · rw [if_neg (by simp [h2]), if_pos h1, set_revoked_eq_self h2]
    · rw [if_pos ⟨h1, by simpa using h2⟩, if_pos h1]
  · rw [if_neg (fun hc => h1 hc.1), if_neg h1]

lemma revokeUserTokens_idem (s : Store) (uid : String) :
    revokeUserTokens (revokeUserTokens s uid) uid = revokeUserTokens s uid := by
  rw [revokeUserTokens_eq_map, revokeUserTokens_eq_map, List.map_map]
  refine List.map_congr_left ?_
  intro r _
  by_cases h1 : r.userID = uid <;> simp [Function.comp, h1]

/-! Helper lemmas about the token-service operations. -/

lemma generateTokenPair_createOk (cfg : Config) (uid : String) (now : Int) (nid : Nat)
    (s : Store) :
    generateTokenPair cfg uid now nid true s
      = (some ⟨accessTokenOf cfg uid now, refreshTokenOf cfg uid now⟩, none,
          s ++ [refreshDocOf cfg uid now nid]) := rfl

lemma generateTokenPair_createFail (cfg : Config) (uid : String) (now : Int) (nid : Nat)
    (s : Store) :
    generateTokenPair cfg uid now nid false s = (none, some .persistenceError, s) := rfl

lemma generate_store_mem {cfg : Config} {uid : String} {tNow : Int} {newId : Nat}
    {cok : Bool} {s : Store} :
    ∀ rec2 ∈ (generateTokenPair cfg uid tNow newId cok s).2.2,
      rec2 ∈ s ∨ rec2.revoked = false := by
  intro rec2 h
  cases cok
  · exact Or.inl h
  · rw [generateTokenPair_createOk] at h
    rcases List.mem_append.mp h with h1 | h1
    · exact Or.inl h1
    · simp only [List.mem_singleton] at h1
      subst h1
      exact Or.inr rfl

lemma useRefreshToken_parse_fail {cfg : Config} {tok : Token} {now : Int} {s : Store}
    (nid : Nat) (rok cok : Bool) (h : ¬ parseOk tok cfg.jwtRefreshSecret now) :
    useRefreshToken cfg tok now nid rok cok s = (none, some .invalidToken, s) := by
  unfold useRefreshToken
  rw [if_pos h]

lemma useRefreshToken_typ_fail {cfg : Config} {tok : Token} {now : Int} {s : Store}
    (nid : Nat) (rok cok : Bool) (hparse : parseOk tok cfg.jwtRefreshSecret now)
    (h : tok.typ ≠ "refresh") :
    useRefreshToken cfg tok now nid rok cok s = (none, some .invalidToken, s) := by
  unfold useRefreshToken
  rw [if_neg (not_not_intro hparse), if_pos h]

lemma useRefreshToken_sub_fail {cfg : Config} {tok : Token} {now : Int} {s : Store}
    (nid : Nat) (rok cok : Bool) (hparse : parseOk tok cfg.jwtRefreshSecret now)
    (htyp : tok.typ = "refresh") (h : tok.sub = "") :
    useRefreshToken cfg tok now nid rok cok s = (none, some .invalidToken, s) := by
  unfold useRefreshToken
  rw [if_neg (not_not_intro hparse), if_neg (not_not_intro htyp), if_pos h]

lemma useRefreshToken_notfound {cfg : Config} {tok : Token} {now : Int} {s : Store}
    (nid : Nat) (rok cok : Bool) (hparse : parseOk tok cfg.jwtRefreshSecret now)
    (htyp : tok.typ = "refresh") (hsub : tok.sub ≠ "")
    (hf : findByToken s tok tok.sub = none) :
    useRefreshToken cfg tok now nid rok cok s = (none, some .invalidToken, s) := by
  simp [useRefreshToken, hparse, htyp, hsub, hf]

lemma useRefreshToken_revoked {cfg : Config} {tok : Token} {now : Int} {s : Store}
    {stored : RefreshTokenRec}
    (nid : Nat) (rok cok : Bool) (hparse : parseOk tok cfg.jwtRefreshSecret now)
    (htyp : tok.typ = "refresh") (hsub : tok.sub ≠ "")
    (hf : findByToken s tok tok.sub = some stored) (hrv : stored.revoked = true) :
    useRefreshToken cfg tok now nid rok cok s = (none, some .revokedToken, s) := by
  simp [useRefreshToken, hparse, htyp, hsub, hf, hrv]

lemma useRefreshToken_expired {cfg : Config} {tok : Token} {now : Int} {s : Store}
    {stored : RefreshTokenRec}
    (nid : Nat) (rok cok : Bool) (hparse : parseOk tok cfg.jwtRefreshSecret now)
    (htyp : tok.typ = "refresh") (hsub : tok.sub ≠ "")
    (hf : findByToken s tok tok.sub = some stored) (hrv : stored.revoked = false)
    (hexp : stored.expiresAt < now) :
    useRefreshToken cfg tok now nid rok cok s
      = (none, some .invalidToken, if rok then setRevokedFirst s stored.id else s) := by
  simp [useRefreshToken, hparse, htyp, hsub, hf, hrv, hexp, revokeToken_fst]

lemma useRefreshToken_success {cfg : Config} {tok : Token} {now : Int} {s : Store}
    {stored : RefreshTokenRec}
    (nid : Nat) (rok cok : Bool) (hparse : parseOk tok cfg.jwtRefreshSecret now)
    (htyp : tok.typ = "refresh") (hsub : tok.sub ≠ "")
    (hf : findByToken s tok tok.sub = some stored) (hrv : stored.revoked = false)
    (hexp : ¬ stored.expiresAt < now) :
    useRefreshToken cfg tok now nid rok cok s
      = generateTokenPair cfg tok.sub now nid cok
          (if rok then setRevokedFirst s stored.id else s) := by
  simp [useRefreshToken, hparse, htyp, hsub, hf, hrv, hexp, revokeToken_fst]

lemma validate_of_generated {cfg : Config} {uid : String} {tIssue now : Int} {nid : Nat}
    {s : Store} {pair : TokenPair}
    (hsub : uid ≠ "")
    (hgen : (generateTokenPair cfg uid tIssue nid true s).1 = some pair) :
    (now < pair.accessToken.exp * nsPerSec →
        validateAccessToken cfg pair.accessToken now = (some uid, none))
    ∧ (pair.accessToken.exp * nsPerSec ≤ now →
        validateAccessToken cfg pair.accessToken now = (none, some TSError.invalidToken)) := by
  rw [generateTokenPair_createOk] at hgen
  obtain rfl : pair = ⟨accessTokenOf cfg uid tIssue, refreshTokenOf cfg uid tIssue⟩ :=
    (Option.some_inj.mp hgen).symm
  constructor
  · intro hlt
    have hp : parseOk (accessTokenOf cfg uid tIssue) cfg.jwtAccessSecret now :=
      ⟨Or.inl rfl, rfl, hlt⟩
    unfold validateAccessToken
    rw [if_neg (not_not_intro hp)]
    simp [accessTokenOf, hsub]
  · intro hge
    have hp : ¬ parseOk (accessTokenOf cfg uid tIssue) cfg.jwtAccessSecret now := by
      intro h
      exact absurd h.2.2 (not_lt.mpr hge)
    simp [validateAccessToken, hp]

/-! Claim theorems. -/

/-- C5: issuance is atomic from the caller point of view: if the store
Create write fails during GenerateTokenPair, the call returns the
persistence error and no credential pair, and the store is unchanged. -/
theorem c5_issuance_atomic (cfg : Config) (uid : String) (now : Int) (nid : Nat)
    (s : Store) :
    (generateTokenPair cfg uid now nid false s).1 = none
    ∧ (generateTokenPair cfg uid now nid false s).2.1 = some TSError.persistenceError
    ∧ (generateTokenPair cfg uid now nid false s).2.2 = s :=
  ⟨rfl, rfl, rfl⟩

/-- C6: for every store state and every now, CleanupExpired keeps exactly the
records whose expiry is not strictly before now (so it deletes exactly those
strictly before now, regardless of the revoked flag), the surviving records
form a sublist of the original store with each record unchanged, and the
service-level operation delegates to it without error. -/
theorem c6_cleanup_exact (s : Store) (now : Int) (r : RefreshTokenRec) :
    (r ∈ cleanupExpired s now ↔ r ∈ s ∧ ¬ r.expiresAt < now)
    ∧ List.Sublist (cleanupExpired s now) s
    ∧ cleanupExpiredService s now = (cleanupExpired s now, none) := by
  refine ⟨?_, ?_, rfl⟩
  · simp [cleanupExpired, List.mem_filter]
  · exact List.filter_sublist s

/-- C7: RevokeUserTokens maps every record owned by userID to the same record
with revoked set true and leaves all other records unchanged; consequently
every surviving record owned by userID is revoked afterwards; the operation
is idempotent, and a second service-level RevokeRefreshTokens call returns no
error and leaves the store identical to the state after the first call. -/
theorem c7_revoke_all_for_user (s : Store) (uid : String) :
    revokeUserTokens s uid
        = s.map (fun r => if r.userID = uid then { r with revoked := true } else r)
    ∧ (∀ r' ∈ revokeUserTokens s uid, r'.userID = uid → r'.revoked = true)
    ∧ revokeUserTokens (revokeUserTokens s uid) uid = revokeUserTokens s uid
    ∧ revokeRefreshTokens (revokeUserTokens s uid) uid
        = (revokeUserTokens s uid, none) := by
  refine ⟨revokeUserTokens_eq_map s uid, ?_, revokeUserTokens_idem s uid, ?_⟩
  · intro r' hr' hru
    rw [revokeUserTokens_eq_map] at hr'
    rcases List.mem_map.mp hr' with ⟨a, ha, rfl⟩
    by_cases h1 : a.userID = uid
    · simp [h1]
    · rw [if_neg h1] at hru ⊢
      exact absurd hru h1
  · unfold revokeRefreshTokens
    rw [revokeUserTokens_idem]

def tokC7 : Token := ⟨"HS256", "u7", 50, "refresh", "r7"⟩

def recC7 : RefreshTokenRec := ⟨1, "u7", tokC7, 50 * nsPerSec, 0, false⟩

/-- Witness for c7_revoke_all_for_user at a concrete store. -/
theorem c7_witness :
    ({ recC7 with revoked := true } ∈ revokeUserTokens [recC7] "u7")
    ∧ ({ recC7 with revoked := true } : RefreshTokenRec).userID = "u7"
    ∧ ({ recC7 with revoked := true } : RefreshTokenRec).revoked = true := by
  refine ⟨by decide, by decide, ?_⟩
  exact (c7_revoke_all_for_user [recC7] "u7").2.1 _ (by decide) (by decide)

/-- C1: rotation is single-use: for a refresh token whose matching store
record exists, is not revoked and is not expired, the first UseRefreshToken
call (with the store writes succeeding) returns a new pair with no error; an
immediate second call with the same original token string fails with
RevokedToken; and, in general, whenever the record found for a token is
revoked, rotation fails with RevokedToken rather than InvalidToken
regardless of the record expiry, because the revocation check precedes the
expiry check. -/
theorem c1_rotation_single_use
    (cfg : Config) (tok : Token) (now : Int) (nid nid2 : Nat) (rok2 cok2 : Bool)
    (s : Store) (stored : RefreshTokenRec)
    (hids : (s.map (fun r => r.id)).Nodup)
    (hparse : parseOk tok cfg.jwtRefreshSecret now)
    (htyp : tok.typ = "refresh")
    (hsub : tok.sub ≠ "")
    (hfind : findByToken s tok tok.sub = some stored)
    (hrev : stored.revoked = false)
    (hexp : ¬ stored.expiresAt < now) :
    ((useRefreshToken cfg tok now nid true true s).1.isSome = true
      ∧ (useRefreshToken cfg tok now nid true true s).2.1 = none)
    ∧ ((useRefreshToken cfg tok now nid2 rok2 cok2
          ((useRefreshToken cfg tok now nid true true s).2.2)).1 = none
      ∧ (useRefreshToken cfg tok now nid2 rok2 cok2
          ((useRefreshToken cfg tok now nid true true s).2.2)).2.1
            = some TSError.revokedToken)
    ∧ (∀ (s' : Store) (stored' : RefreshTokenRec) (now2 : Int) (nid' : Nat)
        (rok ck : Bool),
        parseOk tok cfg.jwtRefreshSecret now2 →
        findByToken s' tok tok.sub = some stored' →
        stored'.revoked = true →
        useRefreshToken cfg tok now2 nid' rok ck s'
          = (none, some TSError.revokedToken, s')) := by
  have h1 := useRefreshToken_success nid true true hparse htyp hsub hfind hrev hexp
  have hstore : (useRefreshToken cfg tok now nid true true s).2.2
      = setRevokedFirst s stored.id ++ [refreshDocOf cfg tok.sub now nid] := by
    rw [h1, generateTokenPair_createOk]
    simp
  have hfind2 : findByToken ((useRefreshToken cfg tok now nid true true s).2.2) tok tok.sub
      = some { stored with revoked := true } := by
    rw [hstore]
    exact findByToken_append_left _ (findByToken_setRevokedFirst hids hfind)
  refine ⟨?_, ?_, ?_⟩
  · rw [h1, generateTokenPair_createOk]
    exact ⟨rfl, rfl⟩
  · have h2 := useRefreshToken_revoked nid2 rok2 cok2 hparse htyp hsub hfind2 rfl
    rw [h2]
    exact ⟨rfl, rfl⟩
  · intro s' stored' now2 nid' rok ck hp hf hr
    exact useRefreshToken_revoked nid' rok ck hp htyp hsub hf hr

def cfgC1 : Config := ⟨"a1", "r1", 15, 168⟩

def tokC1 : Token := ⟨"HS256", "u1", 100, "refresh", "r1"⟩

def recC1 : RefreshTokenRec := ⟨1, "u1", tokC1, 100 * nsPerSec, 0, false⟩

/-- Witness for c1_rotation_single_use at a concrete one-record store. -/
theorem c1_witness :
    ([recC1].map (fun r => r.id)).Nodup
    ∧ parseOk tokC1 cfgC1.jwtRefreshSecret 5
    ∧ findByToken [recC1] tokC1 tokC1.sub = some recC1
    ∧ (useRefreshToken cfgC1 tokC1 5 2 true true [recC1]).1.isSome = true
    ∧ (useRefreshToken cfgC1 tokC1 5 3 true true
        ((useRefreshToken cfgC1 tokC1 5 2 true true [recC1]).2.2)).2.1
        = some TSError.revokedToken := by
  refine ⟨by decide, by decide, by decide, ?_, ?_⟩
  · exact (c1_rotation_single_use cfgC1 tokC1 5 2 3 true true [recC1] recC1
      (by decide) (by decide) (by decide) (by decide) (by decide) (by decide)
      (by decide)).1.1
  · exact (c1_rotation_single_use cfgC1 tokC1 5 2 3 true true [recC1] recC1
      (by decide) (by decide) (by decide) (by decide) (by decide) (by decide)
      (by decide)).2.1.2

/-- C2 (amended): rotation of a token whose stored record has expired fails
with InvalidToken; the record is marked revoked as a side effect exactly
when the flow reaches the stored-expiry check, which requires the token
itself to still parse (its own exp claim not yet passed); the error of that
best-effort revoke write is swallowed, the call failing with InvalidToken
with the store unchanged in that case.  (For tokens issued by
GenerateTokenPair the embedded exp claim never exceeds the stored expiry,
so an expired record makes the signature check fail first and the record
stays unrevoked; see the counterexample.) -/
theorem c2_expired_rotation
    (cfg : Config) (tok : Token) (now : Int) (nid : Nat) (cok : Bool)
    (s : Store) (stored : RefreshTokenRec)
    (hids : (s.map (fun r => r.id)).Nodup)
    (hparse : parseOk tok cfg.jwtRefreshSecret now)
    (htyp : tok.typ = "refresh") (hsub : tok.sub ≠ "")
    (hfind : findByToken s tok tok.sub = some stored)
    (hrev : stored.revoked = false)
    (hexp : stored.expiresAt < now) :
    useRefreshToken cfg tok now nid true cok s
        = (none, some TSError.invalidToken, setRevokedFirst s stored.id)
    ∧ findByToken (useRefreshToken cfg tok now nid true cok s).2.2 tok tok.sub
        = some { stored with revoked := true }
    ∧ useRefreshToken cfg tok now nid false cok s
        = (none, some TSError.invalidToken, s) := by
  have he := useRefreshToken_expired nid true cok hparse htyp hsub hfind hrev hexp
  have he' := useRefreshToken_expired nid false cok hparse htyp hsub hfind hrev hexp
  refine ⟨?_, ?_, ?_⟩
  · rw [he]
    simp
  · have h2 := findByToken_setRevokedFirst hids hfind
    rw [he]
    simpa using h2
  · rw [he']
    simp

def cfgC2 : Config := ⟨"a2", "r2", 15, 1⟩

def rtokC2 : Token := ⟨"HS256", "u2", 3600, "refresh", "r2"⟩

def storeC2 : Store := (generateTokenPair cfgC2 "u2" 0 1 true []).2.2

def tLateC2 : Int := 3600 * nsPerSec + 1

/-- C2 counterexample: the store holds exactly the record of the refresh
token issued at time 0 with a one-hour TTL; at time tLateC2 the stored
expiry has passed and the record has not been cleaned up, yet rotation,
while failing with InvalidToken, leaves the store unchanged: the record is
not marked revoked, because the embedded exp claim of the token makes the
signature-level validation fail before the store is consulted. -/
theorem c2_counterexample :
    storeC2 = [⟨1, "u2", rtokC2, 3600 * nsPerSec, 0, false⟩]
    ∧ (3600 * nsPerSec : Int) < tLateC2
    ∧ useRefreshToken cfgC2 rtokC2 tLateC2 2 true true storeC2
        = (none, some TSError.invalidToken, storeC2) := by
  refine ⟨by decide, by decide, by decide⟩

def cfgC2w : Config := ⟨"aw2", "rw2", 15, 168⟩

def tokC2w : Token := ⟨"HS256", "u2w", 10000, "refresh", "rw2"⟩

def recC2w : RefreshTokenRec := ⟨1, "u2w", tokC2w, 5, 0, false⟩

/-- Witness for c2_expired_rotation: a stored record whose expiry precedes
the exp claim embedded in its token reaches the stored-expiry branch. -/
theorem c2_witness :
    parseOk tokC2w cfgC2w.jwtRefreshSecret 6
    ∧ recC2w.expiresAt < 6
    ∧ useRefreshToken cfgC2w tokC2w 6 2 true true [recC2w]
        = (none, some TSError.invalidToken, setRevokedFirst [recC2w] recC2w.id) := by
  refine ⟨by decide, by decide, ?_⟩
  exact (c2_expired_rotation cfgC2w tokC2w 6 2 true [recC2w] recC2w (by decide)
    (by decide) (by decide) (by decide) (by decide) (by decide) (by decide)).1

def cfgC3 : Config := ⟨"a3", "r3", 15, 168⟩

def atokC3 : Token := ⟨"HS256", "", 900, "access", "a3"⟩

def rtokC3 : Token := ⟨"HS256", "", 604800, "refresh", "r3"⟩

/-- C3 counterexample: for userID = "" issuance succeeds and produces an
access token that is unexpired at validation time 0, yet ValidateAccessToken
fails with InvalidToken, because it rejects an empty subject claim; so the
round-trip property does not hold for every userID. -/
theorem c3_counterexample :
    (generateTokenPair cfgC3 "" 0 1 true []).1 = some ⟨atokC3, rtokC3⟩
    ∧ (0 : Int) < atokC3.exp * nsPerSec
    ∧ validateAccessToken cfgC3 atokC3 0 = (none, some TSError.invalidToken) := by
  refine ⟨by decide, by decide, by decide⟩

/-- C3 (amended): for every nonempty userID, validating the access token
produced by GenerateTokenPair returns that userID while the current time is
strictly before the token expiry instant, and fails with InvalidToken once
the expiry instant is reached; ValidateAccessToken takes no store argument,
so it never invokes a Token Store operation. -/
theorem c3_validate_roundtrip
    (cfg : Config) (uid : String) (tIssue now : Int) (nid : Nat) (s : Store)
    (pair : TokenPair)
    (hsub : uid ≠ "")
    (hgen : (generateTokenPair cfg uid tIssue nid true s).1 = some pair) :
    (now < pair.accessToken.exp * nsPerSec →
        validateAccessToken cfg pair.accessToken now = (some uid, none))
    ∧ (pair.accessToken.exp * nsPerSec ≤ now →
        validateAccessToken cfg pair.accessToken now = (none, some TSError.invalidToken)) :=
  validate_of_generated hsub hgen

def cfgC3w : Config := ⟨"aw3", "rw3", 15, 168⟩

def pairC3w : TokenPair :=
  ⟨⟨"HS256", "u3", 900, "access", "aw3"⟩, ⟨"HS256", "u3", 604800, "refresh", "rw3"⟩⟩

/-- Witness for c3_validate_roundtrip: a concrete issued pair validates to
its subject before expiry and is rejected at the expiry instant. -/
theorem c3_witness :
    ("u3" : String) ≠ ""
    ∧ (generateTokenPair cfgC3w "u3" 0 1 true []).1 = some pairC3w
    ∧ validateAccessToken cfgC3w pairC3w.accessToken 5 = (some "u3", none)
    ∧ validateAccessToken cfgC3w pairC3w.accessToken (900 * nsPerSec)
        = (none, some TSError.invalidToken) := by
  refine ⟨by decide, by decide, ?_, ?_⟩
  · exact (c3_validate_roundtrip cfgC3w "u3" 0 5 1 [] pairC3w (by decide)
      (by decide)).1 (by decide)
  · exact (c3_validate_roundtrip cfgC3w "u3" 0 (900 * nsPerSec) 1 [] pairC3w (by decide)
      (by decide)).2 (by decide)

/-- C9 (amended): every successfully rotated pair carries as its refresh
token exactly the deterministically re-signed token for the same subject
with expiry now plus the refresh TTL; it differs from the presented token
whenever the second-granularity exp claim differs — in particular a rotation
performed in a strictly later Unix second than issuance yields a different
string — while a same-second rotation reproduces the identical string (see
the counterexample). -/
theorem c9_rotation_fresh_token
    (cfg : Config) (tok : Token) (now : Int) (nid : Nat) (rok : Bool)
    (s : Store) (pair : TokenPair)
    (hpair : (useRefreshToken cfg tok now nid rok true s).1 = some pair) :
    pair.refreshToken = refreshTokenOf cfg tok.sub now
    ∧ (unixSeconds (now + cfg.refreshTokenExpireHr * hourNs) ≠ tok.exp →
        pair.refreshToken ≠ tok) := by
  have hmain : pair.refreshToken = refreshTokenOf cfg tok.sub now := by
    by_cases hp : parseOk tok cfg.jwtRefreshSecret now
    · by_cases ht : tok.typ = "refresh"
      · by_cases hs0 : tok.sub = ""
        · rw [useRefreshToken_sub_fail nid rok true hp ht hs0] at hpair
          exact absurd hpair (by simp)
        · rcases hf : findByToken s tok tok.sub with _ | stored
          · rw [useRefreshToken_notfound nid rok true hp ht hs0 hf] at hpair
            exact absurd hpair (by simp)
          · by_cases hrv : stored.revoked = true
            · rw [useRefreshToken_revoked nid rok true hp ht hs0 hf hrv] at hpair
              exact absurd hpair (by simp)
            · have hrv' : stored.revoked = false := by simpa using hrv
              by_cases hex : stored.expiresAt < now
              · rw [useRefreshToken_expired nid rok true hp ht hs0 hf hrv' hex] at hpair
                exact absurd hpair (by simp)
              · rw [useRefreshToken_success nid rok true hp ht hs0 hf hrv' hex,
                  generateTokenPair_createOk] at hpair
                have hinj := Option.some_inj.mp hpair
                rw [← hinj]
      · rw [useRefreshToken_typ_fail nid rok true hp ht] at hpair
        exact absurd hpair (by simp)
    · rw [useRefreshToken_parse_fail nid rok true hp] at hpair
      exact absurd hpair (by simp)
  refine ⟨hmain, fun hne heq => hne ?_⟩
  exact congrArg Token.exp (hmain.symm.trans heq)

def cfgC9 : Config := ⟨"a9", "r9", 15, 168⟩

def rtokC9 : Token := ⟨"HS256", "u9", 604800, "refresh", "r9"⟩

def storeC9 : Store := (generateTokenPair cfgC9 "u9" 0 1 true []).2.2

/-- C9 counterexample: the refresh token issued at time 0 is rotated one
nanosecond later; the rotation succeeds, but because the exp claim is
serialised at second granularity the new refresh token string is identical
to the original one, so the new pair does not always differ from the
original. -/
theorem c9_counterexample :
    storeC9 = [⟨1, "u9", rtokC9, 604800 * nsPerSec, 0, false⟩]
    ∧ (useRefreshToken cfgC9 rtokC9 1 2 true true storeC9).1
        = some ⟨⟨"HS256", "u9", 900, "access", "a9"⟩, rtokC9⟩ := by
  refine ⟨by decide, by decide⟩

def cfgC9w : Config := ⟨"aw9", "rw9", 15, 168⟩

def tokC9w : Token := ⟨"HS256", "u9w", 100, "refresh", "rw9"⟩

def recC9w : RefreshTokenRec := ⟨1, "u9w", tokC9w, 100 * nsPerSec, 0, false⟩

def pairC9w : TokenPair :=
  ⟨⟨"HS256", "u9w", 900, "access", "aw9"⟩, ⟨"HS256", "u9w", 604800, "refresh", "rw9"⟩⟩

/-- Witness for c9_rotation_fresh_token: a successful rotation whose new
expiry second differs from the presented token exp claim produces a
different refresh token string. -/
theorem c9_witness :
    (useRefreshToken cfgC9w tokC9w 5 2 true true [recC9w]).1 = some pairC9w
    ∧ unixSeconds (5 + cfgC9w.refreshTokenExpireHr * hourNs) ≠ tokC9w.exp
    ∧ pairC9w.refreshToken ≠ tokC9w := by
  refine ⟨by decide, by decide, ?_⟩
  exact (c9_rotation_fresh_token cfgC9w tokC9w 5 2 true [recC9w] pairC9w
    (by decide)).2 (by decide)

/-- C4: the revoked flag is monotone: RevokeUserTokens and the UpdateOne
behind RevokeToken never clear a set revoked flag at any store position;
CleanupExpired only removes records, leaving survivors unchanged; Create
appends without touching existing positions; GenerateTokenPair only adds a
record with revoked false; and every record in the store left by
UseRefreshToken is an original record, an original record with revoked set
to true, or a freshly created record with revoked false. -/
theorem c4_revoked_monotone
    (s : Store) (uid : String) (tid newId : Nat) (now tNow : Int) (cfg : Config)
    (i : Nat) (r r' : RefreshTokenRec) (rok cok : Bool) (tok : Token) :
    (s[i]? = some r → (revokeUserTokens s uid)[i]? = some r' →
        r.revoked = true → r'.revoked = true)
    ∧ (s[i]? = some r → (setRevokedFirst s tid)[i]? = some r' →
        r.revoked = true → r'.revoked = true)
    ∧ (revokeToken s tid).1 = setRevokedFirst s tid
    ∧ (r' ∈ cleanupExpired s now → r' ∈ s)
    ∧ (i < s.length → (createRec s r)[i]? = s[i]?)
    ∧ (∀ rec2 ∈ (generateTokenPair cfg uid tNow newId cok s).2.2,
        rec2 ∈ s ∨ rec2.revoked = false)
    ∧ (∀ rec2 ∈ (useRefreshToken cfg tok tNow newId rok cok s).2.2,
        rec2 ∈ s ∨ (∃ rec1 ∈ s, rec2 = { rec1 with revoked := true })
          ∨ rec2.revoked = false) := by
  refine ⟨?_, fun h h' hr => setRevokedFirst_revoked_mono h h' hr,
    revokeToken_fst s tid, fun h => List.mem_of_mem_filter h,
    fun hi => List.getElem?_append_left hi, generate_store_mem, ?_⟩
  · intro h h' hr
    unfold revokeUserTokens at h'
    rw [List.getElem?_map, h, Option.map_some'] at h'
    rw [← Option.some_inj.mp h']
    rw [if_neg (by simp [hr])]
    exact hr
  · intro rec2 hmem
    by_cases hp : parseOk tok cfg.jwtRefreshSecret tNow
    · by_cases ht : tok.typ = "refresh"
      · by_cases hs0 : tok.sub = ""
        · rw [useRefreshToken_sub_fail newId rok cok hp ht hs0] at hmem
          exact Or.inl hmem
        · rcases hf : findByToken s tok tok.sub with _ | stored
          · rw [useRefreshToken_notfound newId rok cok hp ht hs0 hf] at hmem
            exact Or.inl hmem
          · by_cases hrv : stored.revoked = true
            · rw [useRefreshToken_revoked newId rok cok hp ht hs0 hf hrv] at hmem
              exact Or.inl hmem
            · have hrv' : stored.revoked = false := by simpa using hrv
              by_cases hex : stored.expiresAt < tNow
              · rw [useRefreshToken_expired newId rok cok hp ht hs0 hf hrv' hex] at hmem
                rcases mem_store_after_optional_revoke hmem with h1 | h1
                · exact Or.inl h1
                · exact Or.inr (Or.inl h1)
              · rw [useRefreshToken_success newId rok cok hp ht hs0 hf hrv' hex] at hmem
                rcases generate_store_mem rec2 hmem with h1 | h1
                · rcases mem_store_after_optional_revoke h1 with h2 | h2
                  · exact Or.inl h2
                  · exact Or.inr (Or.inl h2)
                · exact Or.inr (Or.inr h1)
      · rw [useRefreshToken_typ_fail newId rok cok hp ht] at hmem
        exact Or.inl hmem
    · rw [useRefreshToken_parse_fail newId rok cok hp] at hmem
      exact Or.inl hmem

def cfgC4 : Config := ⟨"a4", "r4", 15, 168⟩

def tokC4 : Token := ⟨"HS256", "u4", 100, "refresh", "r4"⟩

def recC4 : RefreshTokenRec := ⟨1, "u4", tokC4, 100 * nsPerSec, 0, true⟩

/-- Witness for c4_revoked_monotone: a store with one already revoked record
still has it revoked after RevokeUserTokens. -/
theorem c4_witness :
    ([recC4][0]? = some recC4)
    ∧ ((revokeUserTokens [recC4] "u4")[0]? = some recC4)
    ∧ recC4.revoked = true := by
  refine ⟨by decide, by decide, ?_⟩
  exact (c4_revoked_monotone [recC4] "u4" 1 2 0 0 cfgC4 0 recC4 recC4 true true
    tokC4).1 (by decide) (by decide) (by decide)

def cfgC8 : Config := loadConfig (fun _ => "")

/-- C8 counterexample: with all environment variables unset both secrets
load as the empty string, yet the service is constructed and serves
requests — token issuance succeeds and a token signed with the empty secret
validates — so an empty or missing secret is not a startup-time fatal
condition in this code: no validation of the secrets exists anywhere. -/
theorem c8_counterexample :
    cfgC8.jwtAccessSecret = ""
    ∧ cfgC8.jwtRefreshSecret = ""
    ∧ newTokenService cfgC8 = ⟨cfgC8⟩
    ∧ (generateTokenPair cfgC8 "u8" 0 1 true []).1.isSome = true
    ∧ validateAccessToken cfgC8 ⟨"HS256", "u8", 900, "access", ""⟩ 0
        = (some "u8", none) := by
  refine ⟨by decide, by decide, rfl, rfl, by decide⟩

/-- C8 (amended): neither LoadConfig nor NewTokenService validates the
signing secrets: LoadConfig substitutes the empty string for a missing
secret without failing, NewTokenService constructs the service from any
config, and the token operations simply use whatever secrets were supplied
(issuance succeeds, and validation of a token signed with the configured,
possibly empty, secret succeeds); there is no per-call re-validation of
secrets beyond comparing the token key with the configured secret. -/
theorem c8_no_secret_validation (env : String → String)
    (ha : env "JWT_ACCESS_SECRET" = "") (hr : env "JWT_REFRESH_SECRET" = "") :
    (loadConfig env).jwtAccessSecret = ""
    ∧ (loadConfig env).jwtRefreshSecret = ""
    ∧ (∀ cfg : Config, newTokenService cfg = ⟨cfg⟩)
    ∧ (∀ (uid : String) (now : Int) (nid : Nat) (s : Store),
        (generateTokenPair (loadConfig env) uid now nid true s).1.isSome = true)
    ∧ (∀ (uid : String) (tIssue tv : Int) (nid : Nat) (s : Store) (pair : TokenPair),
        uid ≠ "" →
        (generateTokenPair (loadConfig env) uid tIssue nid true s).1 = some pair →
        tv < pair.accessToken.exp * nsPerSec →
        validateAccessToken (loadConfig env) pair.accessToken tv = (some uid, none)) := by
  refine ⟨?_, ?_, fun cfg => rfl, fun uid now nid s => rfl, ?_⟩
  · simp [loadConfig, getEnv, ha]
  · simp [loadConfig, getEnv, hr]
  · intro uid tIssue tv nid s pair hsub hgen hlt
    exact (validate_of_generated hsub hgen).1 hlt

/-- Witness for c8_no_secret_validation at the everywhere-empty
environment. -/
theorem c8_witness :
    ((fun _ => "") : String → String) "JWT_ACCESS_SECRET" = ""
    ∧ (loadConfig (fun _ => "")).jwtAccessSecret = ""
    ∧ (generateTokenPair (loadConfig (fun _ => "")) "u8w" 0 1 true []).1.isSome
        = true := by
  refine ⟨rfl, ?_, ?_⟩
  · exact (c8_no_secret_validation (fun _ => "") rfl rfl).1
  · exact (c8_no_secret_validation (fun _ => "") rfl rfl).2.2.2.1 "u8w" 0 1 []

/-- C10: both ValidateAccessToken and UseRefreshToken reject any token whose
signing algorithm is outside the HMAC family, failing with InvalidToken
whatever the claims are, and for UseRefreshToken the store is untouched. -/
theorem c10_non_hmac_rejected
    (cfg : Config) (tok : Token) (now : Int) (nid : Nat) (rok cok : Bool) (s : Store)
    (halg : ¬ isHMAC tok.alg) :
    validateAccessToken cfg tok now = (none, some TSError.invalidToken)
    ∧ useRefreshToken cfg tok now nid rok cok s = (none, some TSError.invalidToken, s) := by
  have hp : ∀ sec : String, ¬ parseOk tok sec now := fun sec h => halg h.1
  constructor
  · unfold validateAccessToken
    rw [if_pos (hp cfg.jwtAccessSecret)]
  · exact useRefreshToken_parse_fail nid rok cok (hp cfg.jwtRefreshSecret)

def cfgC10 : Config := ⟨"a10", "r10", 15, 168⟩

def tokC10 : Token := ⟨"none", "u10", 999999999, "access", "a10"⟩

/-- Witness for c10_non_hmac_rejected: a token with algorithm "none" and
otherwise plausible claims is rejected by validation. -/
theorem c10_witness :
    ¬ isHMAC tokC10.alg
    ∧ validateAccessToken cfgC10 tokC10 0 = (none, some TSError.invalidToken) :=
  ⟨by decide, (c10_non_hmac_rejected cfgC10 tokC10 0 1 true true [] (by decide)).1⟩

end MagicStream
